import Mathlib

/-!
# Verification of the Perlin-noise engine (`src/py/perlin2d.py`, `src/py/perlin3d.py`)

Shallow embedding of the 2D/3D gradient-noise evaluators and the fractal
combinators.  Real-valued numpy arrays become Lean functions `ℕ → … → ℝ`
(total functions; the code only reads indices inside the array bounds).
The numpy RNG stream `np.random.rand` is modelled by explicit seed
arguments: a function giving the uniform draw at every lattice corner
(and, for the fractal loops, at every octave index, since each octave
consumes a fresh block of draws from the stream).

Failure is modelled with `Except NoiseError`, following the numpy
pipeline's actual behavior along each axis `i` (writing `d[i] =
shape[i] // res[i]` and `m[i] = res[i] * d[i]`, the axis-`i` extent of
the sliced corner-gradient arrays `g00`, …):
* a `res` entry of 0 hits `ZeroDivisionError` at `shape[i] // res[i]`
  (modelled `invalidParameter`);
* if some axis has `shape[i] ≥ 2` and `res[i] ∤ shape[i]`, then
  `2 ≤ shape[i]`, `m[i] ≠ shape[i]` and `m[i] ∉ {0, 1}` forces a
  broadcast `ValueError` at the elementwise product `grid * g00`
  (modelled `shapeMismatch`);
* but an axis with `shape[i] = 1 < res[i]` does NOT raise: `d[i] = 0`
  makes `g00` empty along that axis (`repeat(0, i)` then the `[:-0]`,
  i.e. `[:0]`, slice) while `grid` has extent 1 there, and numpy
  broadcasting stretches the size-1 extent against 0, so the pipeline
  silently returns an empty, truncated array with no exception.  The
  model returns `Except.ok` of the all-zero function for this silent
  path: the returned numpy array has a zero-length axis and hence no
  entries at all, so the function's values are immaterial — what
  matters is that the call succeeds and yields no error.
The spec's data model restricts `shape` to positive entries; a `shape`
entry of 0 (where Python would raise `ZeroDivisionError` at
`delta = res/shape`) is left on the ok path as the empty divisible
field and no theorem below relies on it.
-/

set_option maxRecDepth 4000

noncomputable section

namespace Perlin

/-- The two failure modes of a call, per the error taxonomy:
`shapeMismatch` for a `shape` axis that is not an exact multiple of the
effective resolution, `invalidParameter` for a non-positive resolution
entry. -/
inductive NoiseError where
  | shapeMismatch
  | invalidParameter
  deriving DecidableEq

/-- Function `interpolant` of `perlin2d.py`: the quintic smoothstep
`t*t*t*(t*(t*6 - 15) + 10)`. -/
def interpolant (t : ℝ) : ℝ := t * t * t * (t * (t * 6 - 15) + 10)

/-- Local (fractional) lattice coordinate of output sample `i` along one
axis: `np.mgrid[0:res:delta][i] % 1` with `delta = res/shape`, i.e.
`(i * res / shape) mod 1`. -/
def gridCoord (shape res i : ℕ) : ℝ :=
  Int.fract ((i : ℝ) * ((res : ℝ) / (shape : ℝ)))

/-- The 2D gradient at lattice corner `(a, b)`:
`angles = 2*np.pi*np.random.rand(...)`,
`gradients = np.dstack((np.cos(angles), np.sin(angles)))`.
`u a b` is the uniform draw for that corner. -/
def gradients2d (u : ℕ → ℕ → ℝ) (a b : ℕ) : ℝ × ℝ :=
  (Real.cos (2 * Real.pi * u a b), Real.sin (2 * Real.pi * u a b))

/-- The gradient lattice after the tileability overwrites, in source
order: first `gradients[-1,:] = gradients[0,:]` (axis 0, index `r0` is the
last row), then `gradients[:,-1] = gradients[:,0]` on the already
updated array. -/
def gradients2dTile (r0 r1 : ℕ) (t0 t1 : Bool) (u : ℕ → ℕ → ℝ)
    (a b : ℕ) : ℝ × ℝ :=
  let g1 : ℕ → ℕ → ℝ × ℝ := fun a b =>
    if t0 = true ∧ a = r0 then gradients2d u 0 b else gradients2d u a b
  if t1 = true ∧ b = r1 then g1 a 0 else g1 a b

/-- Corner ramp `n⟨oa⟩⟨ob⟩` at output sample `(i, j)`: the dot product of
the offset from corner `(oa, ob)` of the enclosing cell with that
corner's gradient.  The corner gradient comes from the upsampled array
`gradients.repeat(d0, 0).repeat(d1, 1)` sliced with offset `oa*d0`
(resp. `ob*d1`): its entry at `(i + oa*d0, j + ob*d1)` is the lattice
gradient at `((i + oa*d0) / d0, (j + ob*d1) / d1)`. -/
def ramp2d (s0 s1 r0 r1 : ℕ) (t0 t1 : Bool) (u : ℕ → ℕ → ℝ)
    (oa ob i j : ℕ) : ℝ :=
  let d0 := s0 / r0
  let d1 := s1 / r1
  let g := gradients2dTile r0 r1 t0 t1 u ((i + oa * d0) / d0) ((j + ob * d1) / d1)
  (gridCoord s0 r0 i - (oa : ℝ)) * g.1 + (gridCoord s1 r1 j - (ob : ℝ)) * g.2

/-- The value of `generate_perlin_noise_2d` at output sample `(i, j)`
(the mathematics of the numpy pipeline, for inputs on which it does not
raise): ramps `n00, n10, n01, n11`, interpolated weights `t`, then
`n0 = n00*(1-t0) + t0*n10`, `n1 = n01*(1-t0) + t0*n11`, and
`sqrt(2)*((1-t1)*n0 + t1*n1)`. -/
def perlin2dField (s0 s1 r0 r1 : ℕ) (t0 t1 : Bool) (f : ℝ → ℝ)
    (u : ℕ → ℕ → ℝ) (i j : ℕ) : ℝ :=
  let tx := f (gridCoord s0 r0 i)
  let ty := f (gridCoord s1 r1 j)
  let n00 := ramp2d s0 s1 r0 r1 t0 t1 u 0 0 i j
  let n10 := ramp2d s0 s1 r0 r1 t0 t1 u 1 0 i j
  let n01 := ramp2d s0 s1 r0 r1 t0 t1 u 0 1 i j
  let n11 := ramp2d s0 s1 r0 r1 t0 t1 u 1 1 i j
  let n0 := n00 * (1 - tx) + tx * n10
  let n1 := n01 * (1 - tx) + tx * n11
  Real.sqrt 2 * ((1 - ty) * n0 + ty * n1)

/-- Function `generate_perlin_noise_2d`: the noise field when every `res`
entry is positive and divides the corresponding `shape` entry; the
broadcast `ValueError` (`shapeMismatch`) when some axis has
`shape[i] ≥ 2` not a multiple of `res[i]`; the silently returned empty
truncated array (an `ok` with no meaningful entries, see the file
header) when every non-dividing axis has `shape[i] = 1`; and
`ZeroDivisionError` (`invalidParameter`) on a zero `res` entry. -/
def generate_perlin_noise_2d (s0 s1 r0 r1 : ℕ) (t0 t1 : Bool)
    (f : ℝ → ℝ) (u : ℕ → ℕ → ℝ) : Except NoiseError (ℕ → ℕ → ℝ) :=
  if 0 < r0 ∧ 0 < r1 then
    if r0 ∣ s0 ∧ r1 ∣ s1 then
      Except.ok (perlin2dField s0 s1 r0 r1 t0 t1 f u)
    else if (2 ≤ s0 ∧ ¬ r0 ∣ s0) ∨ (2 ≤ s1 ∧ ¬ r1 ∣ s1) then
      Except.error NoiseError.shapeMismatch
    else Except.ok (fun _ _ => 0)
  else Except.error NoiseError.invalidParameter

/-- The loop of `generate_fractal_noise_2d`: `rem` iterations remaining,
`k` the index of the current octave (addressing its block of the seed
stream `u`), current `frequency` and `amplitude`, accumulated `noise`.
Body: `noise += amplitude * generate_perlin_noise_2d(shape,
(frequency*res[0], frequency*res[1]), tileable, interpolant)`, then
`frequency *= lacunarity`, `amplitude *= persistence`. -/
def fractal2dGo (s0 s1 r0 r1 : ℕ) (pers : ℝ) (lac : ℕ) (t0 t1 : Bool)
    (f : ℝ → ℝ) (u : ℕ → ℕ → ℕ → ℝ) :
    ℕ → ℕ → ℕ → ℝ → (ℕ → ℕ → ℝ) → Except NoiseError (ℕ → ℕ → ℝ)
  | 0, _k, _freq, _amp, noise => Except.ok noise
  | rem + 1, k, freq, amp, noise =>
    match generate_perlin_noise_2d s0 s1 (freq * r0) (freq * r1) t0 t1 f (u k) with
    | Except.error e => Except.error e
    | Except.ok field =>
      fractal2dGo s0 s1 r0 r1 pers lac t0 t1 f u rem (k + 1) (freq * lac)
        (amp * pers) (fun i j => noise i j + amp * field i j)

/-- Function `generate_fractal_noise_2d`: `noise = np.zeros(shape)`,
`frequency = 1`, `amplitude = 1`, then the octave loop. -/
def generate_fractal_noise_2d (s0 s1 r0 r1 octaves : ℕ) (pers : ℝ)
    (lac : ℕ) (t0 t1 : Bool) (f : ℝ → ℝ) (u : ℕ → ℕ → ℕ → ℝ) :
    Except NoiseError (ℕ → ℕ → ℝ) :=
  fractal2dGo s0 s1 r0 r1 pers lac t0 t1 f u octaves 0 1 1 (fun _ _ => 0)

/-- The 3D gradient at lattice corner `(a, b, c)`:
`theta = 2*np.pi*np.random.rand(...)`, `phi = 2*np.pi*np.random.rand(...)`
(two separate blocks of the stream, modelled by the two seed planes
`ut`, `uph`), gradient
`(sin(phi)*cos(theta), sin(phi)*sin(theta), cos(phi))`. -/
def gradients3d (ut uph : ℕ → ℕ → ℕ → ℝ) (a b c : ℕ) : ℝ × ℝ × ℝ :=
  (Real.sin (2 * Real.pi * uph a b c) * Real.cos (2 * Real.pi * ut a b c),
   Real.sin (2 * Real.pi * uph a b c) * Real.sin (2 * Real.pi * ut a b c),
   Real.cos (2 * Real.pi * uph a b c))

/-- The 3D gradient lattice after the tileability overwrites, in source
order: axis 0 (`gradients[-1,:,:] = gradients[0,:,:]`), then axis 1,
then axis 2, each on the already updated array. -/
def gradients3dTile (r0 r1 r2 : ℕ) (t0 t1 t2 : Bool)
    (ut uph : ℕ → ℕ → ℕ → ℝ) (a b c : ℕ) : ℝ × ℝ × ℝ :=
  let g1 : ℕ → ℕ → ℕ → ℝ × ℝ × ℝ := fun a b c =>
    if t0 = true ∧ a = r0 then gradients3d ut uph 0 b c
    else gradients3d ut uph a b c
  let g2 : ℕ → ℕ → ℕ → ℝ × ℝ × ℝ := fun a b c =>
    if t1 = true ∧ b = r1 then g1 a 0 c else g1 a b c
  if t2 = true ∧ c = r2 then g2 a b 0 else g2 a b c

/-- Corner ramp `n⟨oa⟩⟨ob⟩⟨oc⟩` at output sample `(i, j, k)` of the 3D
evaluator: dot product of the offset from corner `(oa, ob, oc)` with
that corner's gradient, the gradient read from the
`repeat(d0,0).repeat(d1,1).repeat(d2,2)` upsampled lattice sliced with
offsets `oa*d0, ob*d1, oc*d2`. -/
def ramp3d (s0 s1 s2 r0 r1 r2 : ℕ) (t0 t1 t2 : Bool)
    (ut uph : ℕ → ℕ → ℕ → ℝ) (oa ob oc i j k : ℕ) : ℝ :=
  let d0 := s0 / r0
  let d1 := s1 / r1
  let d2 := s2 / r2
  let g := gradients3dTile r0 r1 r2 t0 t1 t2 ut uph
    ((i + oa * d0) / d0) ((j + ob * d1) / d1) ((k + oc * d2) / d2)
  (gridCoord s0 r0 i - (oa : ℝ)) * g.1 +
    (gridCoord s1 r1 j - (ob : ℝ)) * g.2.1 +
    (gridCoord s2 r2 k - (oc : ℝ)) * g.2.2

/-- The value of `generate_perlin_noise_3d` at output sample `(i, j, k)`:
eight ramps, then the three interpolation stages
`n00 = n000*(1-t0) + t0*n100`, …, `n0 = (1-t1)*n00 + t1*n10`, …, and the
final `(1-t2)*n0 + t2*n1` returned with no scaling factor. -/
def perlin3dField (s0 s1 s2 r0 r1 r2 : ℕ) (t0 t1 t2 : Bool) (f : ℝ → ℝ)
    (ut uph : ℕ → ℕ → ℕ → ℝ) (i j k : ℕ) : ℝ :=
  let tx := f (gridCoord s0 r0 i)
  let ty := f (gridCoord s1 r1 j)
  let tz := f (gridCoord s2 r2 k)
  let n000 := ramp3d s0 s1 s2 r0 r1 r2 t0 t1 t2 ut uph 0 0 0 i j k
  let n100 := ramp3d s0 s1 s2 r0 r1 r2 t0 t1 t2 ut uph 1 0 0 i j k
  let n010 := ramp3d s0 s1 s2 r0 r1 r2 t0 t1 t2 ut uph 0 1 0 i j k
  let n110 := ramp3d s0 s1 s2 r0 r1 r2 t0 t1 t2 ut uph 1 1 0 i j k
  let n001 := ramp3d s0 s1 s2 r0 r1 r2 t0 t1 t2 ut uph 0 0 1 i j k
  let n101 := ramp3d s0 s1 s2 r0 r1 r2 t0 t1 t2 ut uph 1 0 1 i j k
  let n011 := ramp3d s0 s1 s2 r0 r1 r2 t0 t1 t2 ut uph 0 1 1 i j k
  let n111 := ramp3d s0 s1 s2 r0 r1 r2 t0 t1 t2 ut uph 1 1 1 i j k
  let n00 := n000 * (1 - tx) + tx * n100
  let n10 := n010 * (1 - tx) + tx * n110
  let n01 := n001 * (1 - tx) + tx * n101
  let n11 := n011 * (1 - tx) + tx * n111
  let n0 := (1 - ty) * n00 + ty * n10
  let n1 := (1 - ty) * n01 + ty * n11
  (1 - tz) * n0 + tz * n1

/-- Function `generate_perlin_noise_3d`: same case analysis as the 2D
evaluator (divisible axes: the field; some non-dividing axis of extent
at least 2: the broadcast error; non-dividing axes all of extent 1: the
silently returned empty truncated array; zero `res` entry:
`invalidParameter`), one axis more. -/
def generate_perlin_noise_3d (s0 s1 s2 r0 r1 r2 : ℕ) (t0 t1 t2 : Bool)
    (f : ℝ → ℝ) (ut uph : ℕ → ℕ → ℕ → ℝ) :
    Except NoiseError (ℕ → ℕ → ℕ → ℝ) :=
  if 0 < r0 ∧ 0 < r1 ∧ 0 < r2 then
    if r0 ∣ s0 ∧ r1 ∣ s1 ∧ r2 ∣ s2 then
      Except.ok (perlin3dField s0 s1 s2 r0 r1 r2 t0 t1 t2 f ut uph)
    else if (2 ≤ s0 ∧ ¬ r0 ∣ s0) ∨ (2 ≤ s1 ∧ ¬ r1 ∣ s1) ∨ (2 ≤ s2 ∧ ¬ r2 ∣ s2) then
      Except.error NoiseError.shapeMismatch
    else Except.ok (fun _ _ _ => 0)
  else Except.error NoiseError.invalidParameter

/-- The loop of `generate_fractal_noise_3d`; `ut k`, `uph k` are the
octave-`k` blocks of the seed stream. -/
def fractal3dGo (s0 s1 s2 r0 r1 r2 : ℕ) (pers : ℝ) (lac : ℕ)
    (t0 t1 t2 : Bool) (f : ℝ → ℝ) (ut uph : ℕ → ℕ → ℕ → ℕ → ℝ) :
    ℕ → ℕ → ℕ → ℝ → (ℕ → ℕ → ℕ → ℝ) → Except NoiseError (ℕ → ℕ → ℕ → ℝ)
  | 0, _k, _freq, _amp, noise => Except.ok noise
  | rem + 1, k, freq, amp, noise =>
    match generate_perlin_noise_3d s0 s1 s2 (freq * r0) (freq * r1) (freq * r2)
        t0 t1 t2 f (ut k) (uph k) with
    | Except.error e => Except.error e
    | Except.ok field =>
      fractal3dGo s0 s1 s2 r0 r1 r2 pers lac t0 t1 t2 f ut uph rem (k + 1)
        (freq * lac) (amp * pers) (fun i j m => noise i j m + amp * field i j m)

/-- Function `generate_fractal_noise_3d`: zero accumulator, `frequency = 1`,
`amplitude = 1`, then the octave loop. -/
def generate_fractal_noise_3d (s0 s1 s2 r0 r1 r2 octaves : ℕ) (pers : ℝ)
    (lac : ℕ) (t0 t1 t2 : Bool) (f : ℝ → ℝ)
    (ut uph : ℕ → ℕ → ℕ → ℕ → ℝ) : Except NoiseError (ℕ → ℕ → ℕ → ℝ) :=
  fractal3dGo s0 s1 s2 r0 r1 r2 pers lac t0 t1 t2 f ut uph octaves 0 1 1
    (fun _ _ _ => 0)

/-- Generic bilinear blend of four corner values with axis weights
`tx`, `ty` (spec §4.2 step 5, stated independently of the evaluator). -/
def bilerp (tx ty a00 a10 a01 a11 : ℝ) : ℝ :=
  (1 - ty) * ((1 - tx) * a00 + tx * a10) + ty * ((1 - tx) * a01 + tx * a11)

/-- Generic trilinear blend of eight corner values with axis weights
`tx`, `ty`, `tz`. -/
def trilerp (tx ty tz a000 a100 a010 a110 a001 a101 a011 a111 : ℝ) : ℝ :=
  (1 - tz) * bilerp tx ty a000 a100 a010 a110 +
    tz * bilerp tx ty a001 a101 a011 a111

/-- Concrete all-zero corner seed (2D), used to instantiate theorems at a
specific input. -/
def seed2 : ℕ → ℕ → ℝ := fun _ _ => 0

/-- Concrete all-zero corner seed (3D). -/
def seed3 : ℕ → ℕ → ℕ → ℝ := fun _ _ _ => 0

/-- Concrete octave-indexed seed stream (2D fractal). -/
def oseed2 : ℕ → ℕ → ℕ → ℝ := fun _ _ _ => 0

/-- Concrete octave-indexed seed stream (3D fractal). -/
def oseed3 : ℕ → ℕ → ℕ → ℕ → ℝ := fun _ _ _ _ => 0

/-- With one lattice cell per axis (`res = shape`), every sample's local
coordinate is 0. -/
theorem gridCoord_self (s i : ℕ) : gridCoord s s i = 0 := by
  unfold gridCoord
  rcases Nat.eq_zero_or_pos s with h | h
  · subst h; simp
  · rw [div_self (Nat.cast_ne_zero.mpr h.ne')]
    simp

/-- The 2D evaluator succeeds exactly on positive, dividing resolutions. -/
theorem generate_perlin_noise_2d_ok {s0 s1 r0 r1 : ℕ} (t0 t1 : Bool)
    (f : ℝ → ℝ) (u : ℕ → ℕ → ℝ) (h0 : 0 < r0) (h1 : 0 < r1)
    (hd0 : r0 ∣ s0) (hd1 : r1 ∣ s1) :
    generate_perlin_noise_2d s0 s1 r0 r1 t0 t1 f u =
      Except.ok (perlin2dField s0 s1 r0 r1 t0 t1 f u) := by
  unfold generate_perlin_noise_2d
  rw [if_pos ⟨h0, h1⟩, if_pos ⟨hd0, hd1⟩]

/-- The 3D evaluator succeeds exactly on positive, dividing resolutions. -/
theorem generate_perlin_noise_3d_ok {s0 s1 s2 r0 r1 r2 : ℕ} (t0 t1 t2 : Bool)
    (f : ℝ → ℝ) (ut uph : ℕ → ℕ → ℕ → ℝ) (h0 : 0 < r0) (h1 : 0 < r1)
    (h2 : 0 < r2) (hd0 : r0 ∣ s0) (hd1 : r1 ∣ s1) (hd2 : r2 ∣ s2) :
    generate_perlin_noise_3d s0 s1 s2 r0 r1 r2 t0 t1 t2 f ut uph =
      Except.ok (perlin3dField s0 s1 s2 r0 r1 r2 t0 t1 t2 f ut uph) := by
  unfold generate_perlin_noise_3d
  rw [if_pos ⟨h0, h1, h2⟩, if_pos ⟨hd0, hd1, hd2⟩]

/-- Closed form of the 2D octave loop: starting from accumulator `noise`,
frequency `freq` and amplitude `amp` at octave index `k`, when every
remaining octave's effective resolution is positive and divides the
shape, the loop returns `noise` plus the geometric-weight sum of the
single-octave fields. -/
theorem fractal2dGo_ok (s0 s1 r0 r1 : ℕ) (pers : ℝ) (lac : ℕ)
    (t0 t1 : Bool) (f : ℝ → ℝ) (u : ℕ → ℕ → ℕ → ℝ)
    (h0 : 0 < r0) (h1 : 0 < r1) :
    ∀ (rem k freq : ℕ) (amp : ℝ) (noise : ℕ → ℕ → ℝ),
      (∀ m, m < rem → 0 < freq * lac ^ m) →
      (∀ m, m < rem → freq * lac ^ m * r0 ∣ s0) →
      (∀ m, m < rem → freq * lac ^ m * r1 ∣ s1) →
      fractal2dGo s0 s1 r0 r1 pers lac t0 t1 f u rem k freq amp noise =
        Except.ok (fun i j => noise i j +
          ∑ m ∈ Finset.range rem, amp * pers ^ m *
            perlin2dField s0 s1 (freq * lac ^ m * r0) (freq * lac ^ m * r1)
              t0 t1 f (u (k + m)) i j) := by
  intro rem
  induction rem with
  | zero => intro k freq amp noise _ _ _; simp [fractal2dGo]
  | succ rem ih =>
    intro k freq amp noise hpos hdv0 hdv1
    have hfreq : 0 < freq := by simpa using hpos 0 (Nat.succ_pos rem)
    have hfr0 : freq * r0 ∣ s0 := by simpa using hdv0 0 (Nat.succ_pos rem)
    have hfr1 : freq * r1 ∣ s1 := by simpa using hdv1 0 (Nat.succ_pos rem)
    have hok := @generate_perlin_noise_2d_ok s0 s1 (freq * r0) (freq * r1)
      t0 t1 f (u k) (Nat.mul_pos hfreq h0) (Nat.mul_pos hfreq h1) hfr0 hfr1
    have step : fractal2dGo s0 s1 r0 r1 pers lac t0 t1 f u (rem + 1) k freq amp noise =
        fractal2dGo s0 s1 r0 r1 pers lac t0 t1 f u rem (k + 1) (freq * lac)
          (amp * pers) (fun i j => noise i j +
            amp * perlin2dField s0 s1 (freq * r0) (freq * r1) t0 t1 f (u k) i j) := by
      simp only [fractal2dGo]
      rw [hok]
    rw [step, ih (k + 1) (freq * lac) (amp * pers) _
      (fun m hm => by
        have := hpos (m + 1) (by omega)
        have e : freq * lac ^ (m + 1) = freq * lac * lac ^ m := by ring
        rwa [e] at this)
      (fun m hm => by
        have := hdv0 (m + 1) (by omega)
        have e : freq * lac ^ (m + 1) * r0 = freq * lac * lac ^ m * r0 := by ring
        rwa [e] at this)
      (fun m hm => by
        have := hdv1 (m + 1) (by omega)
        have e : freq * lac ^ (m + 1) * r1 = freq * lac * lac ^ m * r1 := by ring
        rwa [e] at this)]
    congr 1
    funext i j
    rw [Finset.sum_range_succ']
    have e0 : ∀ m : ℕ, freq * lac ^ (m + 1) * r0 = freq * lac * lac ^ m * r0 :=
      fun m => by ring
    have e1 : ∀ m : ℕ, freq * lac ^ (m + 1) * r1 = freq * lac * lac ^ m * r1 :=
      fun m => by ring
    have e2 : ∀ m : ℕ, k + 1 + m = k + (m + 1) := fun m => by omega
    simp only [e0, e1, e2, pow_zero, mul_one, one_mul, Nat.add_zero]
    have hsum : ∑ m ∈ Finset.range rem, amp * pers ^ (m + 1) *
          perlin2dField s0 s1 (freq * lac * lac ^ m * r0)
            (freq * lac * lac ^ m * r1) t0 t1 f (u (k + (m + 1))) i j
        = ∑ m ∈ Finset.range rem, amp * pers * pers ^ m *
          perlin2dField s0 s1 (freq * lac * lac ^ m * r0)
            (freq * lac * lac ^ m * r1) t0 t1 f (u (k + (m + 1))) i j :=
      Finset.sum_congr rfl (fun m _ => by ring)
    rw [hsum]
    ring

/-- Closed form of the 3D octave loop. -/
theorem fractal3dGo_ok (s0 s1 s2 r0 r1 r2 : ℕ) (pers : ℝ) (lac : ℕ)
    (t0 t1 t2 : Bool) (f : ℝ → ℝ) (ut uph : ℕ → ℕ → ℕ → ℕ → ℝ)
    (h0 : 0 < r0) (h1 : 0 < r1) (h2 : 0 < r2) :
    ∀ (rem k freq : ℕ) (amp : ℝ) (noise : ℕ → ℕ → ℕ → ℝ),
      (∀ m, m < rem → 0 < freq * lac ^ m) →
      (∀ m, m < rem → freq * lac ^ m * r0 ∣ s0) →
      (∀ m, m < rem → freq * lac ^ m * r1 ∣ s1) →
      (∀ m, m < rem → freq * lac ^ m * r2 ∣ s2) →
      fractal3dGo s0 s1 s2 r0 r1 r2 pers lac t0 t1 t2 f ut uph rem k freq amp noise =
        Except.ok (fun i j w => noise i j w +
          ∑ m ∈ Finset.range rem, amp * pers ^ m *
            perlin3dField s0 s1 s2 (freq * lac ^ m * r0) (freq * lac ^ m * r1)
              (freq * lac ^ m * r2) t0 t1 t2 f (ut (k + m)) (uph (k + m)) i j w) := by
  intro rem
  induction rem with
  | zero => intro k freq amp noise _ _ _ _; simp [fractal3dGo]
  | succ rem ih =>
    intro k freq amp noise hpos hdv0 hdv1 hdv2
    have hfreq : 0 < freq := by simpa using hpos 0 (Nat.succ_pos rem)
    have hfr0 : freq * r0 ∣ s0 := by simpa using hdv0 0 (Nat.succ_pos rem)
    have hfr1 : freq * r1 ∣ s1 := by simpa using hdv1 0 (Nat.succ_pos rem)
    have hfr2 : freq * r2 ∣ s2 := by simpa using hdv2 0 (Nat.succ_pos rem)
    have hok := @generate_perlin_noise_3d_ok s0 s1 s2 (freq * r0) (freq * r1)
      (freq * r2) t0 t1 t2 f (ut k) (uph k) (Nat.mul_pos hfreq h0)
      (Nat.mul_pos hfreq h1) (Nat.mul_pos hfreq h2) hfr0 hfr1 hfr2
    have step : fractal3dGo s0 s1 s2 r0 r1 r2 pers lac t0 t1 t2 f ut uph
          (rem + 1) k freq amp noise =
        fractal3dGo s0 s1 s2 r0 r1 r2 pers lac t0 t1 t2 f ut uph rem (k + 1)
          (freq * lac) (amp * pers) (fun i j w => noise i j w +
            amp * perlin3dField s0 s1 s2 (freq * r0) (freq * r1) (freq * r2)
              t0 t1 t2 f (ut k) (uph k) i j w) := by
      simp only [fractal3dGo]
      rw [hok]
    rw [step, ih (k + 1) (freq * lac) (amp * pers) _
      (fun m hm => by
        have := hpos (m + 1) (by omega)
        have e : freq * lac ^ (m + 1) = freq * lac * lac ^ m := by ring
        rwa [e] at this)
      (fun m hm => by
        have := hdv0 (m + 1) (by omega)
        have e : freq * lac ^ (m + 1) * r0 = freq * lac * lac ^ m * r0 := by ring
        rwa [e] at this)
      (fun m hm => by
        have := hdv1 (m + 1) (by omega)
        have e : freq * lac ^ (m + 1) * r1 = freq * lac * lac ^ m * r1 := by ring
        rwa [e] at this)
      (fun m hm => by
        have := hdv2 (m + 1) (by omega)
        have e : freq * lac ^ (m + 1) * r2 = freq * lac * lac ^ m * r2 := by ring
        rwa [e] at this)]
    congr 1
    funext i j w
    rw [Finset.sum_range_succ']
    have e0 : ∀ m : ℕ, freq * lac ^ (m + 1) * r0 = freq * lac * lac ^ m * r0 :=
      fun m => by ring
    have e1 : ∀ m : ℕ, freq * lac ^ (m + 1) * r1 = freq * lac * lac ^ m * r1 :=
      fun m => by ring
    have e2 : ∀ m : ℕ, freq * lac ^ (m + 1) * r2 = freq * lac * lac ^ m * r2 :=
      fun m => by ring
    have e3 : ∀ m : ℕ, k + 1 + m = k + (m + 1) := fun m => by omega
    simp only [e0, e1, e2, e3, pow_zero, mul_one, one_mul, Nat.add_zero]
    have hsum : ∑ m ∈ Finset.range rem, amp * pers ^ (m + 1) *
          perlin3dField s0 s1 s2 (freq * lac * lac ^ m * r0)
            (freq * lac * lac ^ m * r1) (freq * lac * lac ^ m * r2)
            t0 t1 t2 f (ut (k + (m + 1))) (uph (k + (m + 1))) i j w
        = ∑ m ∈ Finset.range rem, amp * pers * pers ^ m *
          perlin3dField s0 s1 s2 (freq * lac * lac ^ m * r0)
            (freq * lac * lac ^ m * r1) (freq * lac * lac ^ m * r2)
            t0 t1 t2 f (ut (k + (m + 1))) (uph (k + (m + 1))) i j w :=
      Finset.sum_congr rfl (fun m _ => by ring)
    rw [hsum]
    ring

/-! ## Claims -/

/-- C1: for every valid input (positive `res` entries, positive
`lacunarity`, each `shape[i]` an exact multiple of
`res[i] * lacunarity^(octaves-1)`), `generate_fractal_noise_2d` and
`generate_fractal_noise_3d` return exactly the sum over `k < octaves` of
`persistence^k` times the single-octave evaluator at resolution
`lacunarity^k * res` (octave `k` consuming octave `k`'s block of the
random stream). -/
theorem C1_fractal_octave_sum (s0 s1 r0 r1 oct : ℕ) (pers : ℝ) (lac : ℕ)
    (t0 t1 : Bool) (f : ℝ → ℝ) (u : ℕ → ℕ → ℕ → ℝ)
    (v0 v1 v2 q0 q1 q2 : ℕ) (t2 t3 t4 : Bool) (ut uph : ℕ → ℕ → ℕ → ℕ → ℝ)
    (h0 : 0 < r0) (h1 : 0 < r1) (hlac : 0 < lac)
    (hd0 : r0 * lac ^ (oct - 1) ∣ s0) (hd1 : r1 * lac ^ (oct - 1) ∣ s1)
    (g0 : 0 < q0) (g1 : 0 < q1) (g2 : 0 < q2)
    (he0 : q0 * lac ^ (oct - 1) ∣ v0) (he1 : q1 * lac ^ (oct - 1) ∣ v1)
    (he2 : q2 * lac ^ (oct - 1) ∣ v2) :
    generate_fractal_noise_2d s0 s1 r0 r1 oct pers lac t0 t1 f u =
      Except.ok (fun i j => ∑ k ∈ Finset.range oct, pers ^ k *
        perlin2dField s0 s1 (lac ^ k * r0) (lac ^ k * r1) t0 t1 f (u k) i j) ∧
    generate_fractal_noise_3d v0 v1 v2 q0 q1 q2 oct pers lac t2 t3 t4 f ut uph =
      Except.ok (fun i j w => ∑ k ∈ Finset.range oct, pers ^ k *
        perlin3dField v0 v1 v2 (lac ^ k * q0) (lac ^ k * q1) (lac ^ k * q2)
          t2 t3 t4 f (ut k) (uph k) i j w) := by
  have hpow : ∀ m, m < oct → 0 < 1 * lac ^ m := fun m _ => by
    simpa using pow_pos hlac m
  have key : ∀ (r s : ℕ), r * lac ^ (oct - 1) ∣ s →
      ∀ m, m < oct → 1 * lac ^ m * r ∣ s := by
    intro r s hd m hm
    have h1 : lac ^ m ∣ lac ^ (oct - 1) := pow_dvd_pow lac (by omega)
    have h2 : lac ^ m * r ∣ lac ^ (oct - 1) * r := mul_dvd_mul_right h1 r
    have h3 : lac ^ (oct - 1) * r ∣ s := by rwa [mul_comm] at hd
    simpa using h2.trans h3
  constructor
  · unfold generate_fractal_noise_2d
    rw [fractal2dGo_ok s0 s1 r0 r1 pers lac t0 t1 f u h0 h1 oct 0 1 1 _
      hpow (key r0 s0 hd0) (key r1 s1 hd1)]
    simp only [one_mul, Nat.zero_add, zero_add]
  · unfold generate_fractal_noise_3d
    rw [fractal3dGo_ok v0 v1 v2 q0 q1 q2 pers lac t2 t3 t4 f ut uph g0 g1 g2
      oct 0 1 1 _ hpow (key q0 v0 he0) (key q1 v1 he1) (key q2 v2 he2)]
    simp only [one_mul, Nat.zero_add, zero_add]

/-- Witness for C1 at `shape = (8,8)` / `(8,8,8)`, `res = (2,2)` /
`(2,2,2)`, `octaves = 2`, `persistence = 1/2`, `lacunarity = 2`. -/
theorem C1_fractal_octave_sum_witness :
    (0 < 2 ∧ 2 * 2 ^ (2 - 1) ∣ 8) ∧
    generate_fractal_noise_2d 8 8 2 2 2 (1/2 : ℝ) 2 false false interpolant oseed2 =
      Except.ok (fun i j => ∑ k ∈ Finset.range 2, (1/2 : ℝ) ^ k *
        perlin2dField 8 8 (2 ^ k * 2) (2 ^ k * 2) false false interpolant
          (oseed2 k) i j) ∧
    generate_fractal_noise_3d 8 8 8 2 2 2 2 (1/2 : ℝ) 2 false false false
        interpolant oseed3 oseed3 =
      Except.ok (fun i j w => ∑ k ∈ Finset.range 2, (1/2 : ℝ) ^ k *
        perlin3dField 8 8 8 (2 ^ k * 2) (2 ^ k * 2) (2 ^ k * 2)
          false false false interpolant (oseed3 k) (oseed3 k) i j w) := by
  have h := C1_fractal_octave_sum 8 8 2 2 2 (1/2 : ℝ) 2 false false interpolant
    oseed2 8 8 8 2 2 2 false false false oseed3 oseed3
    (by decide) (by decide) (by decide) (by decide) (by decide)
    (by decide) (by decide) (by decide) (by decide) (by decide) (by decide)
  exact ⟨⟨by decide, by decide⟩, h.1, h.2⟩

/-- C2: with `octaves = 1` and inputs satisfying the single-octave
precondition (positive dividing `res`), each fractal combinator returns
exactly the direct single-octave evaluator call on the same parameters
and the same (first-octave) random draws. -/
theorem C2_single_octave_is_evaluator (s0 s1 r0 r1 : ℕ) (pers : ℝ)
    (lac : ℕ) (t0 t1 : Bool) (f : ℝ → ℝ) (u : ℕ → ℕ → ℕ → ℝ)
    (v0 v1 v2 q0 q1 q2 : ℕ) (t2 t3 t4 : Bool) (ut uph : ℕ → ℕ → ℕ → ℕ → ℝ)
    (h0 : 0 < r0) (h1 : 0 < r1) (hd0 : r0 ∣ s0) (hd1 : r1 ∣ s1)
    (g0 : 0 < q0) (g1 : 0 < q1) (g2 : 0 < q2)
    (he0 : q0 ∣ v0) (he1 : q1 ∣ v1) (he2 : q2 ∣ v2) :
    generate_fractal_noise_2d s0 s1 r0 r1 1 pers lac t0 t1 f u =
      generate_perlin_noise_2d s0 s1 r0 r1 t0 t1 f (u 0) ∧
    generate_fractal_noise_3d v0 v1 v2 q0 q1 q2 1 pers lac t2 t3 t4 f ut uph =
      generate_perlin_noise_3d v0 v1 v2 q0 q1 q2 t2 t3 t4 f (ut 0) (uph 0) := by
  have hone : ∀ m : ℕ, m < 1 → 0 < 1 * lac ^ m := by
    intro m hm
    have : m = 0 := by omega
    subst this; simp
  have key : ∀ (r s : ℕ), r ∣ s → ∀ m, m < 1 → 1 * lac ^ m * r ∣ s := by
    intro r s hd m hm
    have : m = 0 := by omega
    subst this; simpa using hd
  constructor
  · unfold generate_fractal_noise_2d
    rw [fractal2dGo_ok s0 s1 r0 r1 pers lac t0 t1 f u h0 h1 1 0 1 1 _
      hone (key r0 s0 hd0) (key r1 s1 hd1),
      generate_perlin_noise_2d_ok t0 t1 f (u 0) h0 h1 hd0 hd1]
    simp only [Finset.sum_range_one, pow_zero, one_mul, mul_one,
      Nat.add_zero, zero_add]
  · unfold generate_fractal_noise_3d
    rw [fractal3dGo_ok v0 v1 v2 q0 q1 q2 pers lac t2 t3 t4 f ut uph g0 g1 g2
      1 0 1 1 _ hone (key q0 v0 he0) (key q1 v1 he1) (key q2 v2 he2),
      generate_perlin_noise_3d_ok t2 t3 t4 f (ut 0) (uph 0) g0 g1 g2 he0 he1 he2]
    simp only [Finset.sum_range_one, pow_zero, one_mul, mul_one,
      Nat.add_zero, zero_add]

/-- Witness for C2 at `shape = (4,4)` / `(4,4,4)`, `res = (2,2)` /
`(2,2,2)`. -/
theorem C2_single_octave_is_evaluator_witness :
    ((0 < 2 ∧ (2 : ℕ) ∣ 4) ∧
    generate_fractal_noise_2d 4 4 2 2 1 (1/2 : ℝ) 2 false false interpolant oseed2 =
      generate_perlin_noise_2d 4 4 2 2 false false interpolant (oseed2 0)) ∧
    generate_fractal_noise_3d 4 4 4 2 2 2 1 (1/2 : ℝ) 2 false false false
        interpolant oseed3 oseed3 =
      generate_perlin_noise_3d 4 4 4 2 2 2 false false false interpolant
        (oseed3 0) (oseed3 0) := by
  have h := C2_single_octave_is_evaluator 4 4 2 2 (1/2 : ℝ) 2 false false
    interpolant oseed2 4 4 4 2 2 2 false false false oseed3 oseed3
    (by decide) (by decide) (by decide) (by decide)
    (by decide) (by decide) (by decide) (by decide) (by decide) (by decide)
  exact ⟨⟨⟨by decide, by decide⟩, h.1⟩, h.2⟩

/-- C5 (code bug): the claim — and the evaluator's own docstring,
"Raises ValueError: If shape is not a multiple of res" — promise a
failure on every non-dividing input, but at `shape = (1,4)`,
`res = (2,2)` (and `(1,4,4)` / `(2,2,2)` in 3D) the source raises
nothing: `d[0] = 0`, the corner-gradient slices are empty along axis 0,
numpy broadcasting stretches the size-1 `grid` axis against 0, and a
silently truncated empty `(0,4)` array is returned.  The last conjunct
shows the spec's own example `shape = (10,10)`, `res = (3,3)` still
raises: the divergence is exactly the `shape[i] = 1 < res[i]` edge. -/
theorem C5_silent_truncation_on_unit_axis :
    generate_perlin_noise_2d 1 4 2 2 false false interpolant seed2 =
      Except.ok (fun _ _ => 0) ∧
    generate_perlin_noise_2d 1 4 2 2 false false interpolant seed2 ≠
      Except.error NoiseError.shapeMismatch ∧
    generate_perlin_noise_3d 1 4 4 2 2 2 false false false interpolant
      seed3 seed3 = Except.ok (fun _ _ _ => 0) ∧
    generate_perlin_noise_2d 10 10 3 3 false false interpolant seed2 =
      Except.error NoiseError.shapeMismatch := by
  have h2 : generate_perlin_noise_2d 1 4 2 2 false false interpolant seed2 =
      Except.ok (fun _ _ => 0) := by
    unfold generate_perlin_noise_2d
    rw [if_pos (by decide), if_neg (by decide), if_neg (by decide)]
  refine ⟨h2, ?_, ?_, ?_⟩
  · rw [h2]
    intro h
    exact Except.noConfusion h
  · unfold generate_perlin_noise_3d
    rw [if_pos (by decide), if_neg (by decide), if_neg (by decide)]
  · unfold generate_perlin_noise_2d
    rw [if_pos (by decide), if_neg (by decide), if_pos (by decide)]

/-- C10: with `octaves = 0` both fractal combinators raise no error and
return the all-zero field, independently of the random stream (the two
equalities over distinct streams `u, u'` make the non-consumption of
draws explicit). -/
theorem C10_zero_octaves_zero_field (s0 s1 r0 r1 : ℕ) (pers : ℝ)
    (lac : ℕ) (t0 t1 : Bool) (f : ℝ → ℝ) (u u' : ℕ → ℕ → ℕ → ℝ)
    (v0 v1 v2 q0 q1 q2 : ℕ) (t2 t3 t4 : Bool)
    (ut ut' uph uph' : ℕ → ℕ → ℕ → ℕ → ℝ) :
    generate_fractal_noise_2d s0 s1 r0 r1 0 pers lac t0 t1 f u =
      Except.ok (fun _ _ => 0) ∧
    generate_fractal_noise_2d s0 s1 r0 r1 0 pers lac t0 t1 f u =
      generate_fractal_noise_2d s0 s1 r0 r1 0 pers lac t0 t1 f u' ∧
    generate_fractal_noise_3d v0 v1 v2 q0 q1 q2 0 pers lac t2 t3 t4 f ut uph =
      Except.ok (fun _ _ _ => 0) ∧
    generate_fractal_noise_3d v0 v1 v2 q0 q1 q2 0 pers lac t2 t3 t4 f ut uph =
      generate_fractal_noise_3d v0 v1 v2 q0 q1 q2 0 pers lac t2 t3 t4 f ut' uph' :=
  ⟨rfl, rfl, rfl, rfl⟩

/-- C3: with `res = shape` (one lattice cell per axis) every output
sample sits at an integer lattice coordinate, and, whatever the corner
gradients (any seed), the evaluator's value there is exactly 0: both the
ramp dot products at the 0-corner and the interpolant weight vanish at
local coordinate 0 (`f 0 = 0` is the spec's interpolant contract,
satisfied by the default quintic smoothstep). -/
theorem C3_corner_samples_zero (s0 s1 : ℕ) (t0 t1 : Bool) (f : ℝ → ℝ)
    (u : ℕ → ℕ → ℝ) (i j : ℕ) (v0 v1 v2 : ℕ) (t2 t3 t4 : Bool)
    (ut uph : ℕ → ℕ → ℕ → ℝ) (a b c : ℕ) (hf : f 0 = 0) :
    perlin2dField s0 s1 s0 s1 t0 t1 f u i j = 0 ∧
    perlin3dField v0 v1 v2 v0 v1 v2 t2 t3 t4 f ut uph a b c = 0 := by
  constructor
  · unfold perlin2dField ramp2d
    simp only [gridCoord_self, hf, Nat.cast_zero, Nat.cast_one]
    ring
  · unfold perlin3dField ramp3d
    simp only [gridCoord_self, hf, Nat.cast_zero, Nat.cast_one]
    ring

/-- Witness for C3 with the default interpolant, `shape = res = (4,4)` /
`(4,4,4)`, at samples `(2,3)` and `(1,2,3)`. -/
theorem C3_corner_samples_zero_witness :
    interpolant 0 = 0 ∧
    perlin2dField 4 4 4 4 false false interpolant seed2 2 3 = 0 ∧
    perlin3dField 4 4 4 4 4 4 false false false interpolant seed3 seed3 1 2 3 = 0 := by
  have hf : interpolant 0 = 0 := by norm_num [interpolant]
  have h := C3_corner_samples_zero 4 4 false false interpolant seed2 2 3
    4 4 4 false false false seed3 seed3 1 2 3 hf
  exact ⟨hf, h.1, h.2⟩

/-- C4: after the gradient-builder step, for each axis flagged tileable
the lattice's last-index slice (index `res[i]`) along that axis equals
its first-index slice, in the 2D and in the 3D builder (each conjunct
under the hypothesis that its axis flag is set). -/
theorem C4_tileable_seam (r0 r1 : ℕ) (t0 t1 : Bool) (u : ℕ → ℕ → ℝ)
    (a b : ℕ) (q0 q1 q2 : ℕ) (t2 t3 t4 : Bool) (ut uph : ℕ → ℕ → ℕ → ℝ)
    (x y z : ℕ) :
    (t0 = true → gradients2dTile r0 r1 t0 t1 u r0 b =
      gradients2dTile r0 r1 t0 t1 u 0 b) ∧
    (t1 = true → gradients2dTile r0 r1 t0 t1 u a r1 =
      gradients2dTile r0 r1 t0 t1 u a 0) ∧
    (t2 = true → gradients3dTile q0 q1 q2 t2 t3 t4 ut uph q0 y z =
      gradients3dTile q0 q1 q2 t2 t3 t4 ut uph 0 y z) ∧
    (t3 = true → gradients3dTile q0 q1 q2 t2 t3 t4 ut uph x q1 z =
      gradients3dTile q0 q1 q2 t2 t3 t4 ut uph x 0 z) ∧
    (t4 = true → gradients3dTile q0 q1 q2 t2 t3 t4 ut uph x y q2 =
      gradients3dTile q0 q1 q2 t2 t3 t4 ut uph x y 0) := by
  refine ⟨fun h => ?_, fun h => ?_, fun h => ?_, fun h => ?_, fun h => ?_⟩ <;>
    subst h <;>
    simp [gradients2dTile, gradients3dTile]

/-- Witness for C4 with all flags set, `res = (2,3)` / `(2,3,4)`. -/
theorem C4_tileable_seam_witness :
    (gradients2dTile 2 3 true true seed2 2 1 = gradients2dTile 2 3 true true seed2 0 1) ∧
    (gradients2dTile 2 3 true true seed2 1 3 = gradients2dTile 2 3 true true seed2 1 0) ∧
    (gradients3dTile 2 3 4 true true true seed3 seed3 2 1 1 =
      gradients3dTile 2 3 4 true true true seed3 seed3 0 1 1) ∧
    (gradients3dTile 2 3 4 true true true seed3 seed3 1 3 1 =
      gradients3dTile 2 3 4 true true true seed3 seed3 1 0 1) ∧
    (gradients3dTile 2 3 4 true true true seed3 seed3 1 1 4 =
      gradients3dTile 2 3 4 true true true seed3 seed3 1 1 0) := by
  have h := C4_tileable_seam 2 3 true true seed2 1 1 2 3 4 true true true
    seed3 seed3 1 1 1
  exact ⟨h.1 rfl, h.2.1 rfl, h.2.2.1 rfl, h.2.2.2.1 rfl, h.2.2.2.2 rfl⟩

/-- C6: the 2D evaluator's value is `sqrt 2` times the bilinear blend of
its four corner ramps under the interpolated weights, while the 3D
evaluator's value is the trilinear blend of its eight corner ramps with
no scaling factor. -/
theorem C6_scaling (s0 s1 r0 r1 : ℕ) (t0 t1 : Bool) (f : ℝ → ℝ)
    (u : ℕ → ℕ → ℝ) (i j : ℕ) (v0 v1 v2 q0 q1 q2 : ℕ) (t2 t3 t4 : Bool)
    (ut uph : ℕ → ℕ → ℕ → ℝ) (x y z : ℕ) :
    perlin2dField s0 s1 r0 r1 t0 t1 f u i j =
      Real.sqrt 2 * bilerp (f (gridCoord s0 r0 i)) (f (gridCoord s1 r1 j))
        (ramp2d s0 s1 r0 r1 t0 t1 u 0 0 i j)
        (ramp2d s0 s1 r0 r1 t0 t1 u 1 0 i j)
        (ramp2d s0 s1 r0 r1 t0 t1 u 0 1 i j)
        (ramp2d s0 s1 r0 r1 t0 t1 u 1 1 i j) ∧
    perlin3dField v0 v1 v2 q0 q1 q2 t2 t3 t4 f ut uph x y z =
      trilerp (f (gridCoord v0 q0 x)) (f (gridCoord v1 q1 y))
        (f (gridCoord v2 q2 z))
        (ramp3d v0 v1 v2 q0 q1 q2 t2 t3 t4 ut uph 0 0 0 x y z)
        (ramp3d v0 v1 v2 q0 q1 q2 t2 t3 t4 ut uph 1 0 0 x y z)
        (ramp3d v0 v1 v2 q0 q1 q2 t2 t3 t4 ut uph 0 1 0 x y z)
        (ramp3d v0 v1 v2 q0 q1 q2 t2 t3 t4 ut uph 1 1 0 x y z)
        (ramp3d v0 v1 v2 q0 q1 q2 t2 t3 t4 ut uph 0 0 1 x y z)
        (ramp3d v0 v1 v2 q0 q1 q2 t2 t3 t4 ut uph 1 0 1 x y z)
        (ramp3d v0 v1 v2 q0 q1 q2 t2 t3 t4 ut uph 0 1 1 x y z)
        (ramp3d v0 v1 v2 q0 q1 q2 t2 t3 t4 ut uph 1 1 1 x y z) := by
  constructor
  · unfold perlin2dField bilerp
    ring
  · unfold perlin3dField trilerp bilerp
    ring

/-- C7: each 2D lattice gradient is `(cos θ, sin θ)` for the corner's
angle `θ = 2π·u`, each 3D lattice gradient is
`(sin φ cos θ, sin φ sin θ, cos φ)` for the corner's two angles, and in
particular every gradient — raw or after the tileability overwrites —
has unit Euclidean length. -/
theorem C7_unit_gradients (u : ℕ → ℕ → ℝ) (ut uph : ℕ → ℕ → ℕ → ℝ)
    (a b c : ℕ) (r0 r1 : ℕ) (t0 t1 : Bool) (q0 q1 q2 : ℕ)
    (t2 t3 t4 : Bool) :
    gradients2d u a b =
      (Real.cos (2 * Real.pi * u a b), Real.sin (2 * Real.pi * u a b)) ∧
    (gradients2d u a b).1 ^ 2 + (gradients2d u a b).2 ^ 2 = 1 ∧
    gradients3d ut uph a b c =
      (Real.sin (2 * Real.pi * uph a b c) * Real.cos (2 * Real.pi * ut a b c),
       Real.sin (2 * Real.pi * uph a b c) * Real.sin (2 * Real.pi * ut a b c),
       Real.cos (2 * Real.pi * uph a b c)) ∧
    (gradients3d ut uph a b c).1 ^ 2 + (gradients3d ut uph a b c).2.1 ^ 2 +
      (gradients3d ut uph a b c).2.2 ^ 2 = 1 ∧
    (gradients2dTile r0 r1 t0 t1 u a b).1 ^ 2 +
      (gradients2dTile r0 r1 t0 t1 u a b).2 ^ 2 = 1 ∧
    (gradients3dTile q0 q1 q2 t2 t3 t4 ut uph a b c).1 ^ 2 +
      (gradients3dTile q0 q1 q2 t2 t3 t4 ut uph a b c).2.1 ^ 2 +
      (gradients3dTile q0 q1 q2 t2 t3 t4 ut uph a b c).2.2 ^ 2 = 1 := by
  have base2 : ∀ a b : ℕ, (gradients2d u a b).1 ^ 2 + (gradients2d u a b).2 ^ 2 = 1 := by
    intro a b
    unfold gradients2d
    exact Real.cos_sq_add_sin_sq _
  have base3 : ∀ a b c : ℕ, (gradients3d ut uph a b c).1 ^ 2 +
      (gradients3d ut uph a b c).2.1 ^ 2 + (gradients3d ut uph a b c).2.2 ^ 2 = 1 := by
    intro a b c
    unfold gradients3d
    have h1 := Real.cos_sq_add_sin_sq (2 * Real.pi * ut a b c)
    have h2 := Real.sin_sq_add_cos_sq (2 * Real.pi * uph a b c)
    dsimp only
    linear_combination (Real.sin (2 * Real.pi * uph a b c)) ^ 2 * h1 + h2
  refine ⟨rfl, base2 a b, rfl, base3 a b c, ?_, ?_⟩
  · unfold gradients2dTile
    dsimp only
    split_ifs <;> apply base2
  · unfold gradients3dTile
    dsimp only
    split_ifs <;> apply base3

/-- C8: each of the four generators is a pure function of its parameters
and its seed (the modelled random stream): two calls agreeing on the
seed and on every parameter return identical fields — no other input
exists that could influence the output. -/
theorem C8_two_run_determinism (s0 s1 r0 r1 : ℕ) (t0 t1 : Bool)
    (f : ℝ → ℝ) (w w' : ℕ → ℕ → ℝ) (oct : ℕ) (pers : ℝ) (lac : ℕ)
    (u u' : ℕ → ℕ → ℕ → ℝ) (v0 v1 v2 q0 q1 q2 : ℕ) (t2 t3 t4 : Bool)
    (wt wt' wp wp' : ℕ → ℕ → ℕ → ℝ) (vt vt' vp vp' : ℕ → ℕ → ℕ → ℕ → ℝ)
    (hw : w = w') (hu : u = u') (hwt : wt = wt') (hwp : wp = wp')
    (hvt : vt = vt') (hvp : vp = vp') :
    generate_perlin_noise_2d s0 s1 r0 r1 t0 t1 f w =
      generate_perlin_noise_2d s0 s1 r0 r1 t0 t1 f w' ∧
    generate_fractal_noise_2d s0 s1 r0 r1 oct pers lac t0 t1 f u =
      generate_fractal_noise_2d s0 s1 r0 r1 oct pers lac t0 t1 f u' ∧
    generate_perlin_noise_3d v0 v1 v2 q0 q1 q2 t2 t3 t4 f wt wp =
      generate_perlin_noise_3d v0 v1 v2 q0 q1 q2 t2 t3 t4 f wt' wp' ∧
    generate_fractal_noise_3d v0 v1 v2 q0 q1 q2 oct pers lac t2 t3 t4 f vt vp =
      generate_fractal_noise_3d v0 v1 v2 q0 q1 q2 oct pers lac t2 t3 t4 f vt' vp' := by
  subst hw hu hwt hwp hvt hvp
  exact ⟨rfl, rfl, rfl, rfl⟩

/-- Witness for C8: two calls of every generator at identical concrete
parameters and seeds. -/
theorem C8_two_run_determinism_witness :
    generate_perlin_noise_2d 4 4 2 2 false false interpolant seed2 =
      generate_perlin_noise_2d 4 4 2 2 false false interpolant seed2 ∧
    generate_fractal_noise_2d 4 4 2 2 1 (1/2 : ℝ) 2 false false interpolant oseed2 =
      generate_fractal_noise_2d 4 4 2 2 1 (1/2 : ℝ) 2 false false interpolant oseed2 ∧
    generate_perlin_noise_3d 4 4 4 2 2 2 false false false interpolant seed3 seed3 =
      generate_perlin_noise_3d 4 4 4 2 2 2 false false false interpolant seed3 seed3 ∧
    generate_fractal_noise_3d 4 4 4 2 2 2 1 (1/2 : ℝ) 2 false false false
        interpolant oseed3 oseed3 =
      generate_fractal_noise_3d 4 4 4 2 2 2 1 (1/2 : ℝ) 2 false false false
        interpolant oseed3 oseed3 :=
  C8_two_run_determinism 4 4 2 2 false false interpolant seed2 seed2 1 (1/2 : ℝ) 2
    oseed2 oseed2 4 4 4 2 2 2 false false false seed3 seed3 seed3 seed3
    oseed3 oseed3 oseed3 oseed3 rfl rfl rfl rfl rfl rfl

end Perlin
